import Mathlib

/-!
Shallow embedding of the FlexCAN driver in `src/can.rs` (s32k144evb).

The peripheral state is a bank of 16 mailboxes (4 words of embedded RAM
each) together with the `IFLAG1` completion-flag register.  Machine
integers are modelled as `Nat`; the `bit_field` accessors `get_bits` /
`set_bits` / `get_bit` / `set_bit` are modelled arithmetically, and the
crate's fit assert in `set_bits` is modelled as a fatal outcome at the
call sites where it can fire.  Writes to `IFLAG1` follow the
hardware's write-1-to-clear semantics, which the driver relies on (see
the comments "Clear the interrupt flag ..." and "clear all interrupt
flags ..." in the source).

Rust panics (`panic!`, `.unwrap()` on `Err`/`None`, `unreachable!`) are
modelled by a distinguished `fatal` outcome; an unbounded spin that can
never terminate in a quiescent (hardware-silent) model is modelled by a
`hang` outcome.
-/

namespace CanModel

/-- Rust `bit_field::get_bits(a..b)`: extract bits `a ≤ k < b`. -/
def getBits (x a b : Nat) : Nat := (x >>> a) % 2 ^ (b - a)

/-- Rust `bit_field::set_bits(a..b, v)` as a pure bit operation: replace
bits `a ≤ k < b` by `v`.  The crate asserts that `v` fits the range and
panics otherwise; the assert is modelled where it can actually fire
(see `write_mailbox`), and at every other call site the argument fits by
its Rust type or construction, so the `v % 2 ^ (b - a)` here never
truncates on the program's executions. -/
def setBits (x a b v : Nat) : Nat :=
  x % 2 ^ a + v % 2 ^ (b - a) * 2 ^ a + (x >>> b) * 2 ^ b

/-- Rust `bit_field::set_bit(i, bv)`. -/
def setBit (x i : Nat) (bv : Bool) : Nat := setBits x i (i + 1) (cond bv 1 0)

/-- Write-1-to-clear: the result of writing value `v` to a flag register
currently holding `x` (every bit set in `v` is cleared in `x`).  Equal
to `Nat.ldiff x v`, in an executable form. -/
def w1c (x v : Nat) : Nat := x - (x &&& v)

/-- Number of transmit mailboxes (`TX_MAILBOXES`). -/
def TX_MAILBOXES : Nat := 8

/-- Number of receive mailboxes (`RX_MAILBOXES`). -/
def RX_MAILBOXES : Nat := 8

/-- Rust `ReceiveBufferState` from the source. -/
inductive ReceiveBufferState
  | Inactive
  | Empty
  | Full
  | Overrun
  | Ranswer
  deriving DecidableEq, Repr

/-- Rust `ReceiveBufferCode` from the source: a receive state plus busy flag. -/
structure ReceiveBufferCode where
  state : ReceiveBufferState
  busy : Bool
  deriving DecidableEq, Repr

/-- Rust `TransmitBufferState` from the source. -/
inductive TransmitBufferState
  | Inactive
  | Abort
  | DataRemote
  | Tanswer
  deriving DecidableEq, Repr

/-- Rust `MessageBufferCode` from the source. -/
inductive MessageBufferCode
  | Receive (r : ReceiveBufferCode)
  | Transmit (t : TransmitBufferState)
  deriving DecidableEq, Repr

/-- Rust `impl From<MessageBufferCode> for u8` from the source, written with the
same `set_bit`/`set_bits`/`get_bits` chains. -/
def MessageBufferCode.encode : MessageBufferCode → Nat
  | .Receive r =>
    match r.state with
    | .Inactive => getBits (setBits (setBit 0 0 r.busy) 1 4 0b000) 0 4
    | .Empty => getBits (setBits (setBit 0 0 r.busy) 1 4 0b010) 0 4
    | .Full => getBits (setBits (setBit 0 0 r.busy) 1 4 0b001) 0 4
    | .Overrun => getBits (setBits (setBit 0 0 r.busy) 1 4 0b011) 0 4
    | .Ranswer => getBits (setBits (setBit 0 0 r.busy) 1 4 0b101) 0 4
  | .Transmit t =>
    match t with
    | .Inactive => 0b1000
    | .Abort => 0b1001
    | .DataRemote => 0b1100
    | .Tanswer => 0b1110

/-- Rust `MessageBufferCode::decode` from the source; the Rust
`Result<Self, ()>` is modelled as `Option` (`Err(()) ↦ none`). -/
def MessageBufferCode.decode (code : Nat) : Option MessageBufferCode :=
  match code with
  | 0b1000 => some (.Transmit .Inactive)
  | 0b1001 => some (.Transmit .Abort)
  | 0b1100 => some (.Transmit .DataRemote)
  | 0b1110 => some (.Transmit .Tanswer)
  | 0b0000 => some (.Receive ⟨.Inactive, false⟩)
  | 0b0001 => some (.Receive ⟨.Inactive, true⟩)
  | 0b0100 => some (.Receive ⟨.Empty, false⟩)
  | 0b0101 => some (.Receive ⟨.Empty, true⟩)
  | 0b0010 => some (.Receive ⟨.Full, false⟩)
  | 0b0011 => some (.Receive ⟨.Full, true⟩)
  | 0b0110 => some (.Receive ⟨.Overrun, false⟩)
  | 0b0111 => some (.Receive ⟨.Overrun, true⟩)
  | 0b1010 => some (.Receive ⟨.Ranswer, false⟩)
  | 0b1011 => some (.Receive ⟨.Ranswer, true⟩)
  | _ => none

/-- CAN identifier (`embedded_types::can::ID`): Base (11-bit) or
Extended (29-bit) numeric value. -/
inductive ID
  | BaseID (v : Nat)
  | ExtendedID (v : Nat)
  deriving DecidableEq, Repr

/-- Rust `u32::from(id)`: the raw numeric identifier value. -/
def ID.toU32 : ID → Nat
  | .BaseID v => v
  | .ExtendedID v => v

/-- Rust `embedded_types::can::DataFrame`: identifier plus payload bytes
(`data` lists exactly the `data()` slice, `dlc` = its length). -/
structure DataFrame where
  id : ID
  data : List Nat
  deriving DecidableEq, Repr

/-- Rust `embedded_types::can::RemoteFrame`. -/
structure RemoteFrame where
  id : ID
  deriving DecidableEq, Repr

/-- Rust `embedded_types::can::CanFrame`. -/
inductive CanFrame
  | DataFrame (f : DataFrame)
  | RemoteFrame (f : RemoteFrame)
  deriving DecidableEq, Repr

/-- Rust `CanFrame::id()`. -/
def CanFrame.id : CanFrame → ID
  | .DataFrame f => f.id
  | .RemoteFrame f => f.id

/-- Payload length: `data_frame.data().len()` for a data frame, `0`
otherwise (mirrors the `data_length` computation in `write_mailbox`). -/
def CanFrame.dataLen : CanFrame → Nat
  | .DataFrame f => f.data.length
  | .RemoteFrame _ => 0

/-- The registers of the CAN peripheral touched by the mailbox engine:
the embedded mailbox RAM (4 words per mailbox, 16 mailboxes = 64 words)
and the `IFLAG1` completion-flag register. -/
structure Regs where
  ram : List Nat
  iflag1 : Nat
  deriving DecidableEq, Repr

/-- Rust `can.embedded_ram[i].read().bits()`. -/
def ramGet (s : Regs) (i : Nat) : Nat := s.ram.getD i 0

/-- A single register write performed by the driver. -/
inductive WriteEvent
  | ram (idx val : Nat)
  | flags (val : Nat)
  deriving DecidableEq, Repr

/-- Apply one register write.  A RAM write is a plain store; a write to
`IFLAG1` is write-1-to-clear (hardware semantics of the flag register). -/
def applyEvent (s : Regs) : WriteEvent → Regs
  | .ram i v => { s with ram := s.ram.set i v }
  | .flags v => { s with iflag1 := w1c s.iflag1 v }

/-- Rust `CanError` from the source. -/
inductive CanError
  | FreezeModeError
  | ClockSourceDisabled
  | SettingsError
  | ConfigurationFailed
  | BusyMailboxWriteAttempted
  deriving DecidableEq, Repr

/-- The only `embedded_types::io::Error` variant the driver produces. -/
inductive IOError
  | BufferExhausted
  deriving DecidableEq, Repr

/-- Rust `MailboxHeader` from the source. -/
structure MailboxHeader where
  error_state_indicator : Bool
  code : MessageBufferCode
  time_stamp : Nat
  priority : Nat
  deriving DecidableEq, Repr

/-- Rust `MailboxHeader::default_transmit()`. -/
def MailboxHeader.default_transmit : MailboxHeader :=
  { error_state_indicator := false
    code := .Transmit .Inactive
    time_stamp := 0
    priority := 0 }

/-- Rust `MailboxHeader::default_receive()`. -/
def MailboxHeader.default_receive : MailboxHeader :=
  { error_state_indicator := false
    code := .Receive ⟨.Empty, false⟩
    time_stamp := 0
    priority := 0 }

/-- Rust `read_mailbox_code`: decode the CODE field of a mailbox's control
word.  The Rust `.unwrap()` panics on `none`; callers map `none` to
their fatal outcome. -/
def read_mailbox_code (can : Regs) (mailbox : Nat) : Option MessageBufferCode :=
  MessageBufferCode.decode (getBits (ramGet can (mailbox * 4)) 24 28)

/-- Outcome of `read_mailbox`. -/
inductive ReadOut
  | fatal
  | hang
  | ok (header : MailboxHeader) (frame : CanFrame) (s : Regs)
  deriving DecidableEq, Repr

/-- Body of `read_mailbox` after the busy-wait loop has settled on the
control word `cs` whose CODE field decodes to `code`. -/
def read_mailbox_body (can : Regs) (mailbox : Nat) (cs : Nat)
    (code : MessageBufferCode) : ReadOut :=
  let start_adress := mailbox * 4
  let extended_id := Nat.testBit cs 21
  let id :=
    if extended_id then ID.ExtendedID (getBits (ramGet can (start_adress + 1)) 0 28)
    else ID.BaseID (getBits (ramGet can (start_adress + 1)) 18 28)
  let dlc := getBits cs 16 20
  let remote_frame := Nat.testBit cs 20
  let frame :=
    if remote_frame then CanFrame.RemoteFrame ⟨id⟩
    else
      CanFrame.DataFrame ⟨id, (List.range dlc).map fun i =>
        getBits (ramGet can (start_adress + 2 + i / 4))
          (32 - 8 * (1 + i % 4)) (32 - 8 * (i % 4))⟩
  let priority := getBits (ramGet can (start_adress + 1)) 29 32
  let header : MailboxHeader :=
    { error_state_indicator := Nat.testBit cs 29
      code := code
      time_stamp := getBits cs 0 15
      priority := priority }
  .ok header frame { can with iflag1 := w1c can.iflag1 (1 <<< mailbox) }

/-- Rust `read_mailbox`.  In a quiescent model the control word never changes,
so the busy-wait loop either exits at once or spins forever (`hang`); a
CODE field that does not decode makes the Rust `.unwrap()` panic
(`fatal`).  On success the mailbox's completion flag is acknowledged. -/
def read_mailbox (can : Regs) (mailbox : Nat) : ReadOut :=
  let cs := ramGet can (mailbox * 4)
  match MessageBufferCode.decode (getBits cs 24 28) with
  | none => .fatal
  | some (.Receive r) =>
    if r.busy then .hang else read_mailbox_body can mailbox cs (.Receive r)
  | some (.Transmit t) => read_mailbox_body can mailbox cs (.Transmit t)

/-- The mailbox codes on which `write_mailbox` refuses to write
(the six `return Err(CanError::BusyMailboxWriteAttempted)` arms). -/
def writeBlocked : MessageBufferCode → Bool
  | .Transmit .DataRemote => true
  | .Transmit .Tanswer => true
  | .Receive ⟨.Empty, _⟩ => true
  | .Receive ⟨.Overrun, _⟩ => true
  | .Receive ⟨.Full, _⟩ => true
  | .Receive ⟨.Ranswer, _⟩ => true
  | _ => false

/-- The ID-and-priority word written by `write_mailbox` (step 3). -/
def idWord (header : MailboxHeader) (frame : CanFrame) : Nat :=
  match frame.id with
  | .ExtendedID _ =>
    getBits (setBits (setBits 0 0 29 frame.id.toU32) 29 32 header.priority) 0 32
  | .BaseID _ =>
    getBits (setBits (setBits 0 18 29 frame.id.toU32) 29 32 header.priority) 0 32

/-- The payload loop of `write_mailbox` (step 4): one read-modify-write
per byte, packing bytes big-endian four to a word. -/
def writeDataGo (s : Regs) (start_adress : Nat) :
    List Nat → Nat → Regs × List WriteEvent
  | [], _ => (s, [])
  | byte :: rest, index =>
    let word := ramGet s (start_adress + 2 + index / 4)
    let bitmask := setBits word (32 - 8 * (1 + index % 4)) (32 - 8 * (index % 4)) byte
    let e := WriteEvent.ram (start_adress + 2 + index / 4) bitmask
    let p := writeDataGo (applyEvent s e) start_adress rest (index + 1)
    (p.1, e :: p.2)

/-- Step 4 of `write_mailbox`: write the data bytes of a data frame;
a remote frame writes nothing. -/
def writeData (s : Regs) (start_adress : Nat) : CanFrame → Regs × List WriteEvent
  | .DataFrame df => writeDataGo s start_adress df.data 0
  | .RemoteFrame _ => (s, [])

/-- The control-and-status word written last by `write_mailbox`
(step 5), with the same `set_bit`/`set_bits` chain as the source. -/
def ctrlWord (header : MailboxHeader) (frame : CanFrame) (data_length : Nat) : Nat :=
  let extended_id :=
    match frame.id with
    | .BaseID _ => false
    | .ExtendedID _ => true
  let remote_frame :=
    match frame with
    | .DataFrame _ => false
    | .RemoteFrame _ => true
  let cs0 := setBit 0 31 false
  let cs1 := setBit cs0 29 header.error_state_indicator
  let cs2 := setBits cs1 24 28 (MessageBufferCode.encode header.code)
  let cs3 := setBit cs2 22 true
  let cs4 := setBit cs3 21 extended_id
  let cs5 := setBit cs4 20 remote_frame
  let cs6 := setBits cs5 16 20 data_length
  let cs7 := setBits cs6 0 15 header.time_stamp
  getBits cs7 0 32

/-- The happy path of `write_mailbox` (after the busy check): the
ordered list of register writes it performs, and the resulting state. -/
def write_mailbox_go (can : Regs) (header : MailboxHeader) (frame : CanFrame)
    (mailbox : Nat) : List WriteEvent × Regs :=
  let start_adress := mailbox * 4
  let s1 := applyEvent can (.flags (1 <<< mailbox))
  let s2 := applyEvent s1 (.ram (start_adress + 1) (idWord header frame))
  let pd := writeData s2 start_adress frame
  let cw := ctrlWord header frame frame.dataLen
  (WriteEvent.flags (1 <<< mailbox)
      :: WriteEvent.ram (start_adress + 1) (idWord header frame)
      :: pd.2 ++ [WriteEvent.ram start_adress cw],
    applyEvent pd.1 (.ram start_adress cw))

/-- Outcome of `write_mailbox`. -/
inductive WriteOut
  | fatal
  | err (e : CanError) (s : Regs)
  | ok (trace : List WriteEvent) (s : Regs)
  deriving DecidableEq, Repr

/-- Rust `write_mailbox`: checks the current CODE field (the Rust `.unwrap()`
on an undecodable field is `fatal`), refuses busy codes without touching
any register, and otherwise performs the flag-clear, ID word, payload
and control-word writes in order.

`bit_field::set_bits` asserts that the written value fits the bit range
("value does not fit into bit range", active in release builds).  Two of
the values written here come from header fields whose Rust type is wider
than the field: the 16-bit `time_stamp` goes into the 15-bit range 0..15
of the control word, and the 8-bit `priority` into the 3-bit range
29..32 of the ID word; with either out of range the call panics
mid-sequence (`fatal` — the process dies, so the partial writes are
unobservable).  Every other `set_bits` argument fits by its Rust type or
construction (bools, u8 payload bytes into 8-bit fields, CODE values
below 16, dlc at most 8, and CAN identifiers of 11/29 bits held by
`embedded_types`' identifier types). -/
def write_mailbox (can : Regs) (header : MailboxHeader) (frame : CanFrame)
    (mailbox : Nat) : WriteOut :=
  match MessageBufferCode.decode (getBits (ramGet can (mailbox * 4)) 24 28) with
  | none => .fatal
  | some current =>
    if writeBlocked current then .err CanError.BusyMailboxWriteAttempted can
    else if 2 ^ 3 ≤ header.priority ∨ 2 ^ 15 ≤ header.time_stamp then .fatal
    else
      .ok (write_mailbox_go can header frame mailbox).1
        (write_mailbox_go can header frame mailbox).2

/-- Outcome of `abort_mailbox`. -/
inductive AbortOut
  | fatal
  | hang
  | ok (res : Option CanFrame) (s : Regs)
  deriving DecidableEq, Repr

/-- Rust `abort_mailbox`: only acts when the CODE field decodes to
`Transmit::DataRemote`.  It clears the completion flag, writes the Abort
code, spins while the flag is set (in a quiescent model the flag was
just cleared, so the spin exits at once; a still-set flag would spin
forever), re-reads the mailbox and inspects the post-abort code
(`unreachable!` on anything but Abort/Inactive is `fatal`). -/
def abort_mailbox (can : Regs) (mailbox : Nat) : AbortOut :=
  let start_adress := mailbox * 4
  if MessageBufferCode.decode (getBits (ramGet can start_adress) 24 28)
      = some (.Transmit .DataRemote) then
    let s1 := applyEvent can (.flags (1 <<< mailbox))
    let s2 := applyEvent s1
      (.ram start_adress
        (getBits (setBits 0 24 28 (MessageBufferCode.encode (.Transmit .Abort))) 0 32))
    if Nat.testBit s2.iflag1 mailbox then .hang
    else
      match read_mailbox s2 mailbox with
      | .fatal => .fatal
      | .hang => .hang
      | .ok header frame s3 =>
        match header.code with
        | .Transmit .Abort => .ok (some frame) s3
        | .Transmit .Inactive => .ok none s3
        | _ => .fatal
  else .ok none can

/-- Outcome of `transmit_quick`. -/
inductive QuickOut
  | fatal
  | ok (s : Regs)
  | err (e : IOError) (s : Regs)
  deriving DecidableEq, Repr

/-- The header `transmit_quick` / `transmit` build: `default_transmit`
with the code switched to `Transmit::DataRemote`. -/
def transmit_header : MailboxHeader :=
  { MailboxHeader.default_transmit with code := .Transmit .DataRemote }

/-- The loop of `Can::transmit_quick`: scan mailboxes `i`, `i+1`, ...
(`fuel` iterations remain), writing into the first one whose CODE is
`Transmit::Inactive`; a failed write moves on to the next candidate. -/
def transmit_quick_go (can : Regs) (frame : CanFrame) : Nat → Nat → QuickOut
  | _, 0 => .err .BufferExhausted can
  | i, fuel + 1 =>
    match read_mailbox_code can i with
    | none => .fatal
    | some c =>
      if c = .Transmit .Inactive then
        match write_mailbox can transmit_header frame i with
        | .ok _ s => .ok s
        | .err _ _ => transmit_quick_go can frame (i + 1) fuel
        | .fatal => .fatal
      else transmit_quick_go can frame (i + 1) fuel

/-- Rust `Can::transmit_quick`. -/
def transmit_quick (can : Regs) (frame : CanFrame) : QuickOut :=
  transmit_quick_go can frame 0 TX_MAILBOXES

/-- Outcome of `Can::transmit`. -/
inductive TransmitOut
  | fatal
  | hang
  | ok (evicted : Option CanFrame) (s : Regs)
  | err (e : IOError) (s : Regs)
  deriving DecidableEq, Repr

/-- Rust `usize::max_value()`, the initial `mailbox_number` in `transmit`. -/
def usize_max : Nat := 2 ^ 64 - 1

/-- The loop of `Can::transmit` (`fuel` iterations remain, `i` is the
mailbox index).  Note the accumulator update in the `DataRemote` arm:
the source assigns `highest_id = u32::from(frame.id())` — the id of the
*incoming* frame — although the comparison used `old_frame.id()`; the
embedding reproduces this faithfully. -/
def transmit_go (frame : CanFrame) : Regs → Nat → Nat → Nat → Nat → TransmitOut
  | can, _, highest_id, mailbox_number, 0 =>
    if highest_id > frame.id.toU32 then
      match abort_mailbox can mailbox_number with
      | .fatal => .fatal
      | .hang => .hang
      | .ok aborted_frame can2 =>
        match write_mailbox can2 transmit_header frame mailbox_number with
        | .ok _ s => .ok aborted_frame s
        | .err _ _ => .fatal
        | .fatal => .fatal
    else .err .BufferExhausted can
  | can, i, highest_id, mailbox_number, fuel + 1 =>
    match read_mailbox can i with
    | .fatal => .fatal
    | .hang => .hang
    | .ok header old_frame can2 =>
      match header.code with
      | .Transmit .Inactive =>
        match write_mailbox can2 transmit_header frame i with
        | .ok _ s => .ok none s
        | .err _ _ => .fatal
        | .fatal => .fatal
      | .Transmit .DataRemote =>
        if old_frame.id.toU32 > highest_id then
          transmit_go frame can2 (i + 1) frame.id.toU32 i fuel
        else transmit_go frame can2 (i + 1) highest_id mailbox_number fuel
      | _ => .fatal

/-- Rust `Can::transmit`. -/
def transmit (can : Regs) (frame : CanFrame) : TransmitOut :=
  transmit_go frame can 0 0 usize_max TX_MAILBOXES

/-- Outcome of `Can::receive`. -/
inductive RecvOut
  | fatal
  | hang
  | ok (frame : CanFrame) (s : Regs)
  | err (e : IOError) (s : Regs)
  deriving DecidableEq, Repr

/-- The loop of `Can::receive`: scan mailboxes `i`, `i+1`, ... (`fuel`
iterations remain) for a set completion flag, reading (and thereby
acknowledging) the first one found. -/
def receive_go (can : Regs) : Nat → Nat → RecvOut
  | _, 0 => .err .BufferExhausted can
  | i, fuel + 1 =>
    if Nat.testBit can.iflag1 i then
      match read_mailbox can i with
      | .fatal => .fatal
      | .hang => .hang
      | .ok _ frame s => .ok frame s
    else receive_go can (i + 1) fuel

/-- Rust `Can::receive`. -/
def receive (can : Regs) : RecvOut :=
  receive_go can TX_MAILBOXES RX_MAILBOXES

/-- Rust `presdiv` as computed in `Can::init`. -/
def presdiv_of (source_frequency can_frequency : Nat) : Nat :=
  source_frequency / can_frequency / 25

/-- Rust `tqs` (time quanta per bit) as computed in `Can::init`. -/
def tqs_of (source_frequency can_frequency : Nat) : Nat :=
  source_frequency / (presdiv_of source_frequency can_frequency + 1) / can_frequency

/-- The `(pseg2, rjw)` lookup (Table 50-26) in `Can::init`; `none` is
the `panic!("there should be between 8 and 25 tqs in an bit")` arm. -/
def pseg2_rjw (tqs : Nat) : Option (Nat × Nat) :=
  if 8 ≤ tqs ∧ tqs < 10 then some (1, 1)
  else if 10 ≤ tqs ∧ tqs < 15 then some (3, 2)
  else if 15 ≤ tqs ∧ tqs < 20 then some (6, 2)
  else if 20 ≤ tqs ∧ tqs < 26 then some (7, 3)
  else none

/-- Outcome of the bit-timing computation in `Can::init` (lines 44-69):
either the guard rejection (`SettingsError`), the `panic!` on a quanta
count outside [8,26) (`fatal`), or the five timing fields. -/
inductive InitTiming
  | fatal
  | err (e : CanError)
  | ok (presdiv pseg2 rjw pseg1 propseg : Nat)
  deriving DecidableEq, Repr

/-- The bit-timing computation of `Can::init` (divisibility/ratio guard,
prescaler, quanta count, segment derivation). -/
def bit_timing (source_frequency can_frequency : Nat) : InitTiming :=
  if source_frequency % can_frequency ≠ 0 ∨ source_frequency < can_frequency * 5 then
    .err CanError.SettingsError
  else
    let presdiv := presdiv_of source_frequency can_frequency
    let tqs := tqs_of source_frequency can_frequency
    match pseg2_rjw tqs with
    | none => .fatal
    | some (pseg2, rjw) =>
      let pseg1 := (tqs - (pseg2 + 1)) / 2 - 1
      let propseg := tqs - (pseg2 + 1) - (pseg1 + 1) - 2
      .ok presdiv pseg2 rjw pseg1 propseg

/-- A freshly initialized register bank: the 8 transmit mailboxes coded
`Transmit::Inactive` (0b1000), the 8 receive mailboxes coded
`Receive::Empty` (0b0100), no completion flags set. -/
def init_state : Regs :=
  { ram := List.flatten ((List.range 16).map fun m =>
      [if m < TX_MAILBOXES then 0x08000000 else 0x04000000, 0, 0, 0])
    iflag1 := 0 }

/-- All 8 transmit mailboxes pending (`Transmit::DataRemote`, data
frames, dlc 0) with base identifiers 0x500, 0x501, ..., 0x507; receive
mailboxes `Empty`; no flags set. -/
def full_state : Regs :=
  { ram := List.flatten ((List.range 16).map fun m =>
      if m < TX_MAILBOXES then [0x0C000000, (0x500 + m) <<< 18, 0, 0]
      else [0x04000000, 0, 0, 0])
    iflag1 := 0 }

/-- A register bank whose mailbox 0 has the reserved CODE pattern 0b1101
in its control word. -/
def reserved_code_state : Regs :=
  { ram := [0x0D000000, 0, 0, 0], iflag1 := 0 }

/-- Receive mailboxes 10 and 13 hold full frames (CODE `Receive::Full`,
base ids 0x123 and 0x234) and their completion flags are set
(`iflag1 = 2^10 + 2^13`); everything else is idle. -/
def rx_state : Regs :=
  { ram := List.flatten ((List.range 16).map fun m =>
      if m < TX_MAILBOXES then [0x08000000, 0, 0, 0]
      else if m = 10 then [0x02000000, 0x123 <<< 18, 0, 0]
      else if m = 13 then [0x02000000, 0x234 <<< 18, 0, 0]
      else [0x04000000, 0, 0, 0])
    iflag1 := 2 ^ 10 + 2 ^ 13 }

/-- Iterate `transmit_quick` with the same frame: `quickN f n s` is the
state after `n` successful calls, or the first non-`ok` outcome. -/
def quickN (frame : CanFrame) : Nat → Regs → QuickOut
  | 0, s => .ok s
  | n + 1, s =>
    match transmit_quick s frame with
    | .ok s2 => quickN frame n s2
    | r => r

/-- Did the iterated call succeed? -/
def QuickOut.isOk : QuickOut → Bool
  | .ok _ => true
  | _ => false

/-- Did the call fail with `BufferExhausted`? -/
def QuickOut.isBufferExhausted : QuickOut → Bool
  | .err .BufferExhausted _ => true
  | _ => false

/-- Observe the error and the mailbox RAM of a failed `transmit`. -/
def TransmitOut.errObs : TransmitOut → Option (IOError × List Nat)
  | .err e s => some (e, s.ram)
  | _ => none

/-- Observe the result frame and state of a successful `receive`. -/
def RecvOut.obs : RecvOut → Option (CanFrame × Regs)
  | .ok f s => some (f, s)
  | _ => none

/-- Rust `write_mailbox` then `read_mailbox` of the same mailbox, observing
the frame the read returns (if both succeed). -/
def write_then_read (s : Regs) (header : MailboxHeader) (frame : CanFrame)
    (mailbox : Nat) : Option CanFrame :=
  match write_mailbox s header frame mailbox with
  | .ok _ s1 =>
    match read_mailbox s1 mailbox with
    | .ok _ f2 _ => some f2
    | _ => none
  | _ => none

/-- The register bank after writing a pending data frame (base id 0x123,
payload `[1, 2]`, timestamp 12345) into mailbox 0 of `init_state`. -/
def written_state : Regs :=
  { ram := [205664313, 76283904, 16908288, 0] ++ init_state.ram.drop 4
    iflag1 := 0 }

/-- The register bank after writing a pending remote frame (base id 3)
into mailbox 0 of `init_state`. -/
def written_remote_state : Regs :=
  { ram := [206569472, 786432, 0, 0] ++ init_state.ram.drop 4
    iflag1 := 0 }

/-! ## Codec lemmas -/

/-- Decoding the encoding of any representable buffer state returns that
state. -/
theorem decode_encode (c : MessageBufferCode) :
    MessageBufferCode.decode c.encode = some c := by
  rcases c with ⟨⟨st, b⟩⟩ | t
  · cases st <;> cases b <;> decide
  · cases t <;> decide

/-- Every decodable 4-bit pattern re-encodes to itself, so every pattern
outside the range of `encode` is undecodable. -/
theorem decode_then_encode : ∀ n, n < 16 →
    (MessageBufferCode.decode n).all (fun c => c.encode == n) = true := by
  decide

/-- C2: for every representable `BufferState` value `s`,
`decode (encode s) = s`, and decoding any reserved 4-bit pattern (one
not produced by `encode`) fails rather than returning a state. -/
theorem c2_codec_roundtrip_and_reserved_fail :
    (∀ c : MessageBufferCode, MessageBufferCode.decode c.encode = some c) ∧
      (∀ n, n < 16 → (∀ c : MessageBufferCode, c.encode ≠ n) →
        MessageBufferCode.decode n = none) := by
  refine ⟨decode_encode, fun n hn hc => ?_⟩
  rcases hd : MessageBufferCode.decode n with _ | c
  · rfl
  · have h := decode_then_encode n hn
    rw [hd] at h
    simp only [Option.all_some, beq_iff_eq] at h
    exact absurd h (hc c)

/-- Witness for C2 at concrete inputs: the reserved pattern `0b1101`
fails to decode, and a sample state round-trips. -/
theorem c2_witness :
    MessageBufferCode.decode 13 = none ∧
      MessageBufferCode.decode
          (MessageBufferCode.encode (.Receive ⟨.Overrun, true⟩))
        = some (.Receive ⟨.Overrun, true⟩) := by
  constructor
  · exact c2_codec_roundtrip_and_reserved_fail.2 13 (by decide)
      (fun c => by rcases c with ⟨⟨st, b⟩⟩ | t
                   · cases st <;> cases b <;> decide
                   · cases t <;> decide)
  · exact c2_codec_roundtrip_and_reserved_fail.1 (.Receive ⟨.Overrun, true⟩)

/-! ## `write_mailbox` busy-rejection (C4) -/

/-- C4: writing to a mailbox whose current code is `Transmit::DataRemote`,
`Transmit::Tanswer`, `Receive::Empty`, `Receive::Full`,
`Receive::Overrun` or `Receive::Ranswer` (any busy flag) fails with
`BusyMailboxWriteAttempted` and returns the register state unchanged. -/
theorem c4_busy_write_rejected_no_mutation (can : Regs) (header : MailboxHeader)
    (frame : CanFrame) (mailbox : Nat) (c : MessageBufferCode)
    (hdec : MessageBufferCode.decode (getBits (ramGet can (mailbox * 4)) 24 28)
      = some c)
    (hbusy : c = .Transmit .DataRemote ∨ c = .Transmit .Tanswer ∨
      (∃ b, c = .Receive ⟨.Empty, b⟩) ∨ (∃ b, c = .Receive ⟨.Full, b⟩) ∨
      (∃ b, c = .Receive ⟨.Overrun, b⟩) ∨ (∃ b, c = .Receive ⟨.Ranswer, b⟩)) :
    write_mailbox can header frame mailbox
      = .err CanError.BusyMailboxWriteAttempted can := by
  have hb : writeBlocked c = true := by
    rcases hbusy with h | h | ⟨b, h⟩ | ⟨b, h⟩ | ⟨b, h⟩ | ⟨b, h⟩ <;> subst h <;> rfl
  unfold write_mailbox
  rw [hdec]
  simp [hb]

/-- Witness for C4: the pending mailbox 0 of `full_state` (code
`Transmit::DataRemote`) rejects a write. -/
theorem c4_witness :
    write_mailbox full_state transmit_header (.DataFrame ⟨.BaseID 1, []⟩) 0
      = .err CanError.BusyMailboxWriteAttempted full_state :=
  c4_busy_write_rejected_no_mutation full_state transmit_header
    (.DataFrame ⟨.BaseID 1, []⟩) 0 (.Transmit .DataRemote) (by decide)
    (Or.inl rfl)

/-! ## Write-1-to-clear arithmetic -/

/-- Rust `ldiff` and `land` split a number: the bits kept plus the bits
masked give it back. -/
theorem ldiff_add_land (x : Nat) : ∀ v : Nat, Nat.ldiff x v + (x &&& v) = x := by
  induction x using Nat.binaryRec with
  | z =>
    intro v
    have h0 : Nat.ldiff 0 v = 0 :=
      Nat.eq_of_testBit_eq fun k => by simp [Nat.testBit_ldiff]
    rw [h0, Nat.zero_and]
  | f a m ih =>
    intro v
    rw [← v.bit_testBit_zero_shiftRight_one, Nat.ldiff_bit, Nat.land_bit,
      Nat.bit_val, Nat.bit_val, Nat.bit_val]
    have h := ih (v >>> 1)
    cases a <;> cases v.testBit 0 <;> simp <;> omega

/-- The executable write-1-to-clear equals `Nat.ldiff`. -/
theorem w1c_eq_ldiff (x v : Nat) : w1c x v = Nat.ldiff x v := by
  have h := ldiff_add_land x v
  unfold w1c
  omega

/-- Bit `k` after a write-1-to-clear: cleared where `v` has a 1,
unchanged elsewhere. -/
theorem testBit_w1c (x v k : Nat) :
    Nat.testBit (w1c x v) k = (Nat.testBit x k && !Nat.testBit v k) := by
  rw [w1c_eq_ldiff, Nat.testBit_ldiff]

/-! ## Inversion lemmas for `write_mailbox` and `read_mailbox` -/

/-- A successful `write_mailbox` produced exactly the trace and state of
its happy path `write_mailbox_go`. -/
theorem write_mailbox_ok_inv {can : Regs} {header : MailboxHeader}
    {frame : CanFrame} {mailbox : Nat} {tr : List WriteEvent} {s : Regs}
    (h : write_mailbox can header frame mailbox = .ok tr s) :
    tr = (write_mailbox_go can header frame mailbox).1 ∧
      s = (write_mailbox_go can header frame mailbox).2 := by
  unfold write_mailbox at h
  split at h
  · exact WriteOut.noConfusion h
  · split at h
    · exact WriteOut.noConfusion h
    · split at h
      · exact WriteOut.noConfusion h
      · injection h with h1 h2
        exact ⟨h1.symm, h2.symm⟩

/-- A successful `write_mailbox` implies both header fields fitted their
bit ranges (the crate's asserts did not fire). -/
theorem write_mailbox_ok_fits {can : Regs} {header : MailboxHeader}
    {frame : CanFrame} {mailbox : Nat} {tr : List WriteEvent} {s : Regs}
    (h : write_mailbox can header frame mailbox = .ok tr s) :
    header.priority < 2 ^ 3 ∧ header.time_stamp < 2 ^ 15 := by
  unfold write_mailbox at h
  split at h
  · exact WriteOut.noConfusion h
  · split at h
    · exact WriteOut.noConfusion h
    · split at h
      · exact WriteOut.noConfusion h
      · rename_i hfit
        push_neg at hfit
        exact hfit

/-- A successful `read_mailbox` returns the timestamp field (bits 0..15)
of the control word and acknowledges exactly this mailbox's completion
flag, leaving the RAM untouched. -/
theorem read_mailbox_ok_inv {can : Regs} {mailbox : Nat} {h : MailboxHeader}
    {f : CanFrame} {s : Regs}
    (hr : read_mailbox can mailbox = .ok h f s) :
    h.time_stamp = getBits (ramGet can (mailbox * 4)) 0 15 ∧
      s = { can with iflag1 := w1c can.iflag1 (1 <<< mailbox) } := by
  simp only [read_mailbox] at hr
  split at hr
  · exact ReadOut.noConfusion hr
  · rename_i r _
    split at hr
    · exact ReadOut.noConfusion hr
    · unfold read_mailbox_body at hr
      injection hr with h1 h2 h3
      exact ⟨h1 ▸ rfl, h3.symm⟩
  · unfold read_mailbox_body at hr
    injection hr with h1 h2 h3
    exact ⟨h1 ▸ rfl, h3.symm⟩

/-! ## List and bit-field lemmas -/

/-- Reading an index just written. -/
theorem getD_set_self : ∀ (l : List Nat) (i v : Nat), i < l.length →
    (l.set i v).getD i 0 = v
  | [], _, _, h => absurd h (by simp)
  | _ :: _, 0, _, _ => rfl
  | _ :: l, i + 1, v, h => getD_set_self l i v (by simpa using h)

/-- Reading an index different from the one written. -/
theorem getD_set_ne : ∀ (l : List Nat) (i j v : Nat), i ≠ j →
    (l.set i v).getD j 0 = l.getD j 0
  | [], _, _, _, _ => rfl
  | _ :: _, 0, 0, _, h => absurd rfl h
  | _ :: _, 0, _ + 1, _, _ => rfl
  | _ :: _, _ + 1, 0, _, _ => rfl
  | _ :: l, i + 1, j + 1, v, h =>
    getD_set_ne l i j v (fun e => h (by rw [e]))

/-- Rust `getBits` from bit 0 is reduction modulo a power of two. -/
theorem getBits_zero_eq_mod (x b : Nat) : getBits x 0 b = x % 2 ^ b := by
  simp [getBits, Nat.shiftRight_eq_div_pow]

/-- Bits 0..15 of the control word built by `write_mailbox` are the
header timestamp truncated to 15 bits. -/
theorem ctrlWord_time_stamp (header : MailboxHeader) (frame : CanFrame)
    (dl : Nat) :
    getBits (ctrlWord header frame dl) 0 15 = header.time_stamp % 2 ^ 15 := by
  unfold ctrlWord
  simp only [getBits_zero_eq_mod]
  rw [Nat.mod_mod_of_dvd _ (by norm_num : (2 : Nat) ^ 15 ∣ 2 ^ 32)]
  unfold setBits
  simp only [Nat.add_mul_mod_self_right]
  omega

/-! ## State shape of a successful `write_mailbox` -/

/-- The payload loop does not change the length of the RAM. -/
theorem writeDataGo_length : ∀ (data : List Nat) (s : Regs) (sa idx : Nat),
    (writeDataGo s sa data idx).1.ram.length = s.ram.length
  | [], _, _, _ => rfl
  | _ :: rest, s, sa, idx => by
    simp only [writeDataGo]
    rw [writeDataGo_length rest _ sa (idx + 1)]
    simp [applyEvent]

/-- The payload loop touches no word below `start_adress + 2`. -/
theorem writeDataGo_preserve_lo : ∀ (data : List Nat) (s : Regs) (sa idx j : Nat),
    j < sa + 2 → ramGet (writeDataGo s sa data idx).1 j = ramGet s j
  | [], _, _, _, _, _ => rfl
  | _ :: rest, s, sa, idx, j, hj => by
    rw [writeDataGo]
    rw [writeDataGo_preserve_lo rest _ sa (idx + 1) j hj]
    simp only [applyEvent, ramGet]
    exact getD_set_ne _ _ _ _ (by omega)

/-- Step 4 of `write_mailbox` does not change the length of the RAM. -/
theorem writeData_length (s : Regs) (sa : Nat) : ∀ fr : CanFrame,
    (writeData s sa fr).1.ram.length = s.ram.length
  | .DataFrame df => writeDataGo_length df.data s sa 0
  | .RemoteFrame _ => rfl

/-- The control word (word 0 of the mailbox) after a successful write is
exactly `ctrlWord`. -/
theorem write_go_ram_ctrl (can : Regs) (header : MailboxHeader)
    (frame : CanFrame) (mailbox : Nat) (hlen : mailbox * 4 < can.ram.length) :
    ramGet (write_mailbox_go can header frame mailbox).2 (mailbox * 4)
      = ctrlWord header frame frame.dataLen := by
  unfold write_mailbox_go
  simp only [applyEvent, ramGet]
  apply getD_set_self
  rw [writeData_length]
  simpa using hlen

/-! ## C10: the 16-bit timestamp against the 15-bit control-word field -/

/-- C10 counterexample: a timestamp with bit 15 set is not "silently
dropped" — `write_mailbox` of a header with `time_stamp = 40000`
(≥ 2^15) into the Inactive mailbox 0 hits `bit_field::set_bits`'
"value does not fit into bit range" assert and aborts the process, so
no frame is installed and nothing can be read back. -/
theorem c10_counterexample :
    write_mailbox init_state { transmit_header with time_stamp := 40000 }
        (.DataFrame ⟨.BaseID 0x123, [1, 2]⟩) 0 = .fatal := by
  decide

/-- C10 (amended): a successful `write_mailbox` implies the header
timestamp `t` fitted the 15-bit field (`t < 2^15`), and a subsequent
`read_mailbox` of the same mailbox returns exactly `t` (which then
equals `t mod 2^15`); for a writable mailbox and `t ≥ 2^15` the write
does not return at all — it panics in the crate's fit assert instead of
truncating. -/
theorem c10_timestamp_roundtrip_or_panic :
    (∀ (can : Regs) (header : MailboxHeader) (frame : CanFrame)
        (mailbox : Nat) (tr : List WriteEvent) (s1 : Regs)
        (h2 : MailboxHeader) (f2 : CanFrame) (s2 : Regs),
        mailbox * 4 < can.ram.length →
        write_mailbox can header frame mailbox = .ok tr s1 →
        read_mailbox s1 mailbox = .ok h2 f2 s2 →
        header.time_stamp < 2 ^ 15 ∧ h2.time_stamp = header.time_stamp) ∧
      (∀ (can : Regs) (header : MailboxHeader) (frame : CanFrame)
        (mailbox : Nat) (c : MessageBufferCode),
        MessageBufferCode.decode (getBits (ramGet can (mailbox * 4)) 24 28)
          = some c →
        writeBlocked c = false → 2 ^ 15 ≤ header.time_stamp →
        write_mailbox can header frame mailbox = .fatal) := by
  constructor
  · intro can header frame mailbox tr s1 h2 f2 s2 hlen hw hr
    have hts := (write_mailbox_ok_fits hw).2
    refine ⟨hts, ?_⟩
    obtain ⟨-, hs1⟩ := write_mailbox_ok_inv hw
    subst hs1
    rw [(read_mailbox_ok_inv hr).1,
      write_go_ram_ctrl can header frame mailbox hlen, ctrlWord_time_stamp,
      Nat.mod_eq_of_lt hts]
  · intro can header frame mailbox c hdec hnb hts
    unfold write_mailbox
    simp only [hdec, hnb, Bool.false_eq_true, if_false]
    rw [if_pos (Or.inr hts)]

/-- Witness for C10: a write with timestamp 12345 into mailbox 0 of
`init_state` reads back exactly 12345, and one with timestamp 32768
into the Inactive mailbox 1 panics. -/
theorem c10_witness :
    (12345 < 2 ^ 15 ∧
      ({ error_state_indicator := false, code := .Transmit .DataRemote,
         time_stamp := 12345, priority := 0 } : MailboxHeader).time_stamp
        = ({ transmit_header with
              time_stamp := 12345 } : MailboxHeader).time_stamp) ∧
      write_mailbox init_state { transmit_header with time_stamp := 32768 }
        (.RemoteFrame ⟨.BaseID 5⟩) 1 = .fatal :=
  ⟨c10_timestamp_roundtrip_or_panic.1 init_state
      { transmit_header with time_stamp := 12345 }
      (.DataFrame ⟨.BaseID 0x123, [1, 2]⟩) 0
      [.flags 1, .ram 1 76283904, .ram 2 16777216, .ram 2 16908288,
        .ram 0 205664313]
      written_state
      { error_state_indicator := false, code := .Transmit .DataRemote,
        time_stamp := 12345, priority := 0 }
      (.DataFrame ⟨.BaseID 291, [1, 2]⟩) written_state
      (by decide) (by decide) (by decide),
    c10_timestamp_roundtrip_or_panic.2 init_state
      { transmit_header with time_stamp := 32768 }
      (.RemoteFrame ⟨.BaseID 5⟩) 1 (.Transmit .Inactive)
      (by decide) (by decide) (by decide)⟩

/-! ## C6: the derived segments account for every time quantum -/

/-- For every quanta count in [8,26) the table lookup succeeds and the
derived phase/propagation segments, the sync quantum included, sum to
the quanta count. -/
theorem pseg2_rjw_total : ∀ t, t < 26 → 8 ≤ t →
    (pseg2_rjw t).isSome = true ∧
      (pseg2_rjw t).all (fun p =>
        1 + (t - (p.1 + 1) - ((t - (p.1 + 1)) / 2 - 1 + 1) - 2 + 1)
            + ((t - (p.1 + 1)) / 2 - 1 + 1) + (p.1 + 1) == t) = true := by
  decide

/-- C6: whenever the source frequency is an integer multiple of the
target bit rate, the ratio is at least 5, and the computed quanta count
`tqs` lies in [8,26), the bit-timing computation succeeds and
`1 + (propseg+1) + (pseg1+1) + (pseg2+1) = tqs`. -/
theorem c6_segments_sum_to_tqs (s f : Nat) (hmod : s % f = 0)
    (hratio : f * 5 ≤ s) (h8 : 8 ≤ tqs_of s f) (h26 : tqs_of s f < 26) :
    ∃ presdiv pseg2 rjw pseg1 propseg,
      bit_timing s f = .ok presdiv pseg2 rjw pseg1 propseg ∧
        1 + (propseg + 1) + (pseg1 + 1) + (pseg2 + 1) = tqs_of s f := by
  have hguard : ¬(s % f ≠ 0 ∨ s < f * 5) := by
    push_neg
    exact ⟨hmod, by omega⟩
  unfold bit_timing
  rw [if_neg hguard]
  obtain ⟨hsome, h⟩ := pseg2_rjw_total (tqs_of s f) h26 h8
  rcases hp : pseg2_rjw (tqs_of s f) with _ | ⟨p2, r⟩
  · rw [hp] at hsome
    exact absurd hsome (by simp)
  · rw [hp] at h
    simp only [Option.all_some, beq_iff_eq] at h
    simp only [hp]
    exact ⟨_, p2, r, _, _, rfl, h⟩

/-- Witness for C6: 16 MHz source, 1 MHz bit rate (tqs = 16). -/
theorem c6_witness :
    ∃ presdiv pseg2 rjw pseg1 propseg,
      bit_timing 16000000 1000000 = .ok presdiv pseg2 rjw pseg1 propseg ∧
        1 + (propseg + 1) + (pseg1 + 1) + (pseg2 + 1)
          = tqs_of 16000000 1000000 :=
  c6_segments_sum_to_tqs 16000000 1000000 (by decide) (by decide)
    (by decide) (by decide)

/-! ## C1, C3, C5: divergences between the code and the claims -/

/-- C1 (divergence witness): with all 8 transmit mailboxes pending —
mailbox 0 holding id 0x500, the others numerically larger ids — a
`transmit` of a higher-priority frame (id 0x100) returns
`BufferExhausted` and evicts nothing (mailbox RAM unchanged), instead of
aborting the worst-pending mailbox and returning its frame: the loop
overwrites `highest_id` with the incoming frame's id, so the final
eviction test `highest_id > frame.id` can never hold. -/
theorem c1_transmit_full_never_evicts :
    (transmit full_state (.DataFrame ⟨.BaseID 0x100, []⟩)).errObs
      = some (.BufferExhausted, full_state.ram) := by
  decide

/-- C3 (divergence witness): writing a frame to the Inactive mailbox 0
and reading it back loses the top identifier bit: the write places a
base id in bits 18..29 (an extended id in bits 0..29) of the ID word,
but the read extracts only bits 18..28 (resp. 0..28), so base id 0x400
and extended id 0x10000000 both read back as 0. -/
theorem c3_roundtrip_drops_top_id_bit :
    write_then_read init_state transmit_header
        (.DataFrame ⟨.BaseID 0x400, []⟩) 0
      = some (.DataFrame ⟨.BaseID 0, []⟩) ∧
    write_then_read init_state transmit_header
        (.DataFrame ⟨.ExtendedID 0x10000000, []⟩) 0
      = some (.DataFrame ⟨.ExtendedID 0, []⟩) := by
  constructor <;> decide

/-- C5 (divergence witness): the driver aborts the process instead of
returning an error on "unreachable" hardware states: a 5 MHz source with
a 1 MHz bit rate passes the ratio guard but yields tqs = 5, hitting the
`panic!` in `Can::init`; and `write_mailbox` hits the `.unwrap()` panic
when the CODE field holds the reserved pattern 0b1101. -/
theorem c5_panics_instead_of_errors :
    bit_timing 5000000 1000000 = .fatal ∧
      write_mailbox reserved_code_state transmit_header
          (.DataFrame ⟨.BaseID 1, []⟩) 0
        = .fatal := by
  constructor <;> decide

/-! ## C9: order of register writes in `write_mailbox` -/

/-- Every event emitted by the payload loop is a RAM write to a word at
or above `start_adress + 2`. -/
theorem writeDataGo_events : ∀ (data : List Nat) (s : Regs) (sa idx : Nat),
    ∀ e ∈ (writeDataGo s sa data idx).2,
      ∃ j v, e = WriteEvent.ram j v ∧ sa + 2 ≤ j
  | [], _, _, _ => by intro e he; exact absurd he (by simp [writeDataGo])
  | b :: rest, s, sa, idx => by
    intro e he
    simp only [writeDataGo, List.mem_cons] at he
    rcases he with he | he
    · exact ⟨sa + 2 + idx / 4, _, he, by omega⟩
    · exact writeDataGo_events rest _ sa (idx + 1) e he

/-- C9: on every successful `write_mailbox`, the register writes happen
in this order: the completion-flag clear first, then the ID+priority
word (`mailbox*4 + 1`), then the payload words (all at `mailbox*4 + 2`
or above, and none at all for a remote frame), and the control word
(`mailbox*4`) last, with nothing written after it. -/
theorem c9_write_order_flag_id_payload_ctrl (can : Regs)
    (header : MailboxHeader) (frame : CanFrame) (mailbox : Nat)
    (tr : List WriteEvent) (s : Regs)
    (hw : write_mailbox can header frame mailbox = .ok tr s) :
    ∃ idv pl cv,
      tr = .flags (1 <<< mailbox) :: .ram (mailbox * 4 + 1) idv :: pl
          ++ [.ram (mailbox * 4) cv] ∧
        (∀ e ∈ pl, ∃ j v, e = WriteEvent.ram j v ∧ mailbox * 4 + 2 ≤ j) ∧
        (∀ rf, frame = .RemoteFrame rf → pl = []) := by
  obtain ⟨htr, -⟩ := write_mailbox_ok_inv hw
  subst htr
  refine ⟨idWord header frame, _, ctrlWord header frame frame.dataLen, rfl,
    ?_, ?_⟩
  · intro e he
    unfold writeData at he
    rcases hf : frame with df | rf <;> rw [hf] at he
    · exact writeDataGo_events df.data _ (mailbox * 4) 0 e he
    · exact absurd he (by simp)
  · intro rf hrf
    subst hrf
    rfl

/-- Witness for C9: writing a remote frame (base id 3) into mailbox 0 of
`init_state` emits exactly flag-clear, ID word, control word. -/
theorem c9_witness :
    ∃ idv pl cv,
      ([.flags 1, .ram 1 786432, .ram 0 206569472] : List WriteEvent)
          = .flags (1 <<< 0) :: .ram (0 * 4 + 1) idv :: pl
            ++ [.ram (0 * 4) cv] ∧
        (∀ e ∈ pl, ∃ j v, e = WriteEvent.ram j v ∧ 0 * 4 + 2 ≤ j) ∧
        (∀ rf, (CanFrame.RemoteFrame ⟨.BaseID 3⟩ : CanFrame)
          = .RemoteFrame rf → pl = []) :=
  c9_write_order_flag_id_payload_ctrl init_state transmit_header
    (.RemoteFrame ⟨.BaseID 3⟩) 0
    [.flags 1, .ram 1 786432, .ram 0 206569472] written_remote_state
    (by decide)

/-! ## C8: the receive scanner takes the lowest flagged mailbox -/

/-- If all flags between `i0` and `i` are clear and mailbox `i`'s flag
is set with a successful read, the scan starting at `i0` returns that
read's frame and state. -/
theorem receive_go_reach (can : Regs) (i : Nat) (h : MailboxHeader)
    (f : CanFrame) (s : Regs) (hflag : Nat.testBit can.iflag1 i = true)
    (hr : read_mailbox can i = .ok h f s) :
    ∀ (fuel i0 : Nat), i0 ≤ i → i < i0 + fuel →
      (∀ j, i0 ≤ j → j < i → Nat.testBit can.iflag1 j = false) →
      receive_go can i0 fuel = .ok f s
  | 0, i0, hle, hlt, _ => by omega
  | fuel + 1, i0, hle, hlt, hprev => by
    rcases Nat.eq_or_lt_of_le hle with heq | hlt0
    · subst heq
      simp only [receive_go, hflag, if_true, hr]
    · have hi0 : Nat.testBit can.iflag1 i0 = false := hprev i0 le_rfl hlt0
      simp only [receive_go, hi0, Bool.false_eq_true, if_false]
      exact receive_go_reach can i h f s hflag hr fuel (i0 + 1) hlt0
        (by omega) (fun j hj1 hj2 => hprev j (by omega) hj2)

/-- With every completion flag in the scanned window clear, the scan
fails with `BufferExhausted` and returns the state unchanged. -/
theorem receive_go_no_flags (can : Regs) :
    ∀ (fuel i0 : Nat),
      (∀ j, i0 ≤ j → j < i0 + fuel → Nat.testBit can.iflag1 j = false) →
      receive_go can i0 fuel = .err .BufferExhausted can
  | 0, _, _ => rfl
  | fuel + 1, i0, h => by
    have h0 : Nat.testBit can.iflag1 i0 = false := h i0 le_rfl (by omega)
    simp only [receive_go, h0, Bool.false_eq_true, if_false]
    exact receive_go_no_flags can fuel (i0 + 1)
      (fun j h1 h2 => h j (by omega) (by omega))

/-- C8: `receive` scans the receive mailboxes in ascending index order
and returns the frame of the lowest-indexed mailbox whose completion
flag is set, clearing only that mailbox's flag; if none of the 8
receive mailboxes' flags is set, it fails with `BufferExhausted`;
concretely, with flags set on mailboxes 10 and 13, it returns the frame
of mailbox 10 and leaves mailbox 13's flag set. -/
theorem c8_receive_lowest_flagged_mailbox :
    (∀ (can : Regs) (i : Nat) (h : MailboxHeader) (f : CanFrame) (s : Regs),
      8 ≤ i → i < 16 → Nat.testBit can.iflag1 i = true →
      (∀ j, 8 ≤ j → j < i → Nat.testBit can.iflag1 j = false) →
      read_mailbox can i = .ok h f s →
      receive can = .ok f s ∧ Nat.testBit s.iflag1 i = false ∧
        ∀ k, k ≠ i → Nat.testBit s.iflag1 k = Nat.testBit can.iflag1 k) ∧
      (∀ can : Regs,
        (∀ j, 8 ≤ j → j < 16 → Nat.testBit can.iflag1 j = false) →
        receive can = .err .BufferExhausted can) ∧
      (receive rx_state).obs
        = some (.DataFrame ⟨.BaseID 0x123, []⟩,
            { rx_state with iflag1 := 2 ^ 13 }) := by
  refine ⟨?_, ?_, by decide⟩
  · intro can i h f s h8 h16 hflag hprev hr
    have hs := (read_mailbox_ok_inv hr).2
    have hshift : (1 : Nat) <<< i = 2 ^ i := by
      rw [Nat.shiftLeft_eq, one_mul]
    refine ⟨?_, ?_, ?_⟩
    · exact receive_go_reach can i h f s hflag hr 8 8 h8 (by omega) hprev
    · rw [hs]
      simp only [testBit_w1c, hshift, Nat.testBit_two_pow_self]
      simp
    · intro k hk
      rw [hs]
      simp only [testBit_w1c, hshift, Nat.testBit_two_pow_of_ne (fun e => hk e.symm)]
      simp
  · intro can hnone
    exact receive_go_no_flags can 8 8 (fun j h1 h2 => hnone j h1 (by omega))

/-- Witness for C8's universally quantified parts: applied to `rx_state`
and mailbox 10, and to the flag-free `init_state`. -/
theorem c8_witness :
    (receive rx_state
        = .ok (.DataFrame ⟨.BaseID 0x123, []⟩) { rx_state with iflag1 := 2 ^ 13 } ∧
      Nat.testBit ({ rx_state with iflag1 := 2 ^ 13 } : Regs).iflag1 10 = false ∧
      ∀ k, k ≠ 10 →
        Nat.testBit ({ rx_state with iflag1 := 2 ^ 13 } : Regs).iflag1 k
          = Nat.testBit rx_state.iflag1 k) ∧
      receive init_state = .err .BufferExhausted init_state := by
  refine ⟨?_, c8_receive_lowest_flagged_mailbox.2.1 init_state
    (fun j hj1 hj2 => Nat.zero_testBit j)⟩
  have h := c8_receive_lowest_flagged_mailbox.1 rx_state 10
    { error_state_indicator := false, code := .Receive ⟨.Full, false⟩,
      time_stamp := 0, priority := 0 }
    (.DataFrame ⟨.BaseID 0x123, []⟩) { rx_state with iflag1 := 2 ^ 13 }
    (by decide) (by decide) (by decide)
    (fun j hj1 hj2 => by interval_cases j <;> decide)
    (by decide)
  exact h

/-! ## C7: `transmit_quick` -/

/-- A mailbox whose CODE is `Transmit::Inactive` accepts a write, which
takes the happy path of `write_mailbox`. -/
theorem write_mailbox_inactive_ok (can : Regs) (header : MailboxHeader)
    (frame : CanFrame) (mailbox : Nat)
    (hc : read_mailbox_code can mailbox = some (.Transmit .Inactive))
    (hp : header.priority < 2 ^ 3) (ht : header.time_stamp < 2 ^ 15) :
    write_mailbox can header frame mailbox
      = .ok (write_mailbox_go can header frame mailbox).1
          (write_mailbox_go can header frame mailbox).2 := by
  unfold read_mailbox_code at hc
  unfold write_mailbox
  simp only [hc, writeBlocked, Bool.false_eq_true, if_false]
  rw [if_neg (by omega : ¬(2 ^ 3 ≤ header.priority ∨ 2 ^ 15 ≤ header.time_stamp))]

/-- RAM reads are unaffected by a RAM write to a different index. -/
theorem ramGet_apply_ram_ne (s : Regs) (i v j : Nat) (h : i ≠ j) :
    ramGet (applyEvent s (.ram i v)) j = ramGet s j :=
  getD_set_ne _ _ _ _ h

/-- RAM reads are unaffected by a flag-register write. -/
theorem ramGet_apply_flags (s : Regs) (v j : Nat) :
    ramGet (applyEvent s (.flags v)) j = ramGet s j := rfl

/-- With at most 8 payload bytes, the payload loop touches no word above
`start_adress + 3`. -/
theorem writeDataGo_preserve_hi : ∀ (data : List Nat) (s : Regs) (sa idx j : Nat),
    idx + data.length ≤ 8 → sa + 3 < j →
    ramGet (writeDataGo s sa data idx).1 j = ramGet s j
  | [], _, _, _, _, _, _ => rfl
  | b :: rest, s, sa, idx, j, hlen, hj => by
    have hrest : idx + 1 + rest.length ≤ 8 := by simp at hlen; omega
    have hidx : idx ≤ 7 := by simp at hlen; omega
    simp only [writeDataGo]
    rw [writeDataGo_preserve_hi rest _ sa (idx + 1) j hrest hj]
    exact ramGet_apply_ram_ne _ _ _ _ (by omega)

/-- Step 4 preserves all words below `start_adress + 2`. -/
theorem writeData_preserve_lo (s : Regs) (sa j : Nat) (fr : CanFrame)
    (hj : j < sa + 2) :
    ramGet (writeData s sa fr).1 j = ramGet s j := by
  cases fr with
  | DataFrame df => exact writeDataGo_preserve_lo df.data s sa 0 j hj
  | RemoteFrame rf => rfl

/-- Step 4 preserves all words above `start_adress + 3` when the frame
carries at most 8 payload bytes. -/
theorem writeData_preserve_hi (s : Regs) (sa j : Nat) (fr : CanFrame)
    (hlen : fr.dataLen ≤ 8) (hj : sa + 3 < j) :
    ramGet (writeData s sa fr).1 j = ramGet s j := by
  cases fr with
  | DataFrame df =>
    exact writeDataGo_preserve_hi df.data s sa 0 j
      (by simpa [CanFrame.dataLen] using hlen) hj
  | RemoteFrame rf => rfl

/-- A successful write to mailbox `mailbox` (payload of at most 8 bytes)
leaves every RAM word outside that mailbox's four words unchanged. -/
theorem write_go_preserve (can : Regs) (header : MailboxHeader)
    (frame : CanFrame) (mailbox j : Nat) (hlen : frame.dataLen ≤ 8)
    (hj : j < mailbox * 4 ∨ mailbox * 4 + 3 < j) :
    ramGet (write_mailbox_go can header frame mailbox).2 j = ramGet can j := by
  unfold write_mailbox_go
  rw [ramGet_apply_ram_ne _ _ _ _ (by omega)]
  rcases hj with hj | hj
  · rw [writeData_preserve_lo _ _ _ _ (by omega),
      ramGet_apply_ram_ne _ _ _ _ (by omega), ramGet_apply_flags]
  · rw [writeData_preserve_hi _ _ _ _ hlen (by omega),
      ramGet_apply_ram_ne _ _ _ _ (by omega), ramGet_apply_flags]

/-- If mailbox `i` is the first Inactive one at or after `i0`, the scan
starting at `i0` writes there and succeeds. -/
theorem transmit_quick_go_reach (can : Regs) (frame : CanFrame) (i : Nat)
    (hc : read_mailbox_code can i = some (.Transmit .Inactive)) :
    ∀ (fuel i0 : Nat), i0 ≤ i → i < i0 + fuel →
      (∀ j, i0 ≤ j → j < i → ∃ c, read_mailbox_code can j = some c ∧
        c ≠ .Transmit .Inactive) →
      transmit_quick_go can frame i0 fuel
        = .ok (write_mailbox_go can transmit_header frame i).2
  | 0, i0, hle, hlt, _ => by omega
  | fuel + 1, i0, hle, hlt, hprev => by
    rcases Nat.eq_or_lt_of_le hle with heq | hlt0
    · subst heq
      simp only [transmit_quick_go, hc, if_true]
      rw [write_mailbox_inactive_ok can transmit_header frame i0 hc (by decide) (by decide)]
    · obtain ⟨c, hcj, hne⟩ := hprev i0 le_rfl hlt0
      simp only [transmit_quick_go, hcj]
      rw [if_neg hne]
      exact transmit_quick_go_reach can frame i hc fuel (i0 + 1) hlt0
        (by omega) (fun j h1 h2 => hprev j (by omega) h2)

/-- The scan never touches a mailbox that currently holds a pending
(`Transmit::DataRemote`) frame. -/
theorem transmit_quick_go_preserve (frame : CanFrame)
    (hflen : frame.dataLen ≤ 8) (m : Nat) :
    ∀ (fuel i0 : Nat) (can : Regs),
      read_mailbox_code can m = some (.Transmit .DataRemote) →
      ∀ s, (transmit_quick_go can frame i0 fuel = .ok s ∨
          transmit_quick_go can frame i0 fuel = .err .BufferExhausted s) →
        ∀ k, k < 4 → ramGet s (m * 4 + k) = ramGet can (m * 4 + k)
  | 0, i0, can, hm, s, hres, k, hk => by
    rcases hres with hres | hres
    · exact QuickOut.noConfusion hres
    · injection hres with h1 h2
      rw [← h2]
  | fuel + 1, i0, can, hm, s, hres, k, hk => by
    simp only [transmit_quick_go] at hres
    rcases hcode : read_mailbox_code can i0 with _ | c
    · rw [hcode] at hres
      rcases hres with h | h <;> exact QuickOut.noConfusion h
    · simp only [hcode] at hres
      by_cases hci : c = .Transmit .Inactive
      · rw [if_pos hci] at hres
        subst hci
        have hne : i0 ≠ m := fun e => by
          rw [e, hm] at hcode
          exact absurd hcode (by simp)
        rw [write_mailbox_inactive_ok can transmit_header frame i0 hcode (by decide) (by decide)] at hres
        rcases hres with h | h
        · injection h with h1
          rw [← h1]
          exact write_go_preserve can transmit_header frame i0 (m * 4 + k)
            hflen (by omega)
        · exact QuickOut.noConfusion h
      · rw [if_neg hci] at hres
        exact transmit_quick_go_preserve frame hflen m fuel (i0 + 1) can hm
          s hres k hk

/-- C7: `transmit_quick` makes a single forward pass over the 8 transmit
mailboxes and writes into the first `Transmit::Inactive` one; from the
all-Inactive `init_state`, 8 consecutive calls succeed and the 9th fails
with `BufferExhausted`; and it never modifies (aborts/evicts) a mailbox
holding a pending `DataRemote` frame. -/
theorem c7_transmit_quick_first_inactive :
    ((quickN (.DataFrame ⟨.BaseID 0x123, [1, 2, 3]⟩) 8 init_state).isOk
        = true ∧
      (quickN (.DataFrame ⟨.BaseID 0x123, [1, 2, 3]⟩) 9
          init_state).isBufferExhausted = true) ∧
      (∀ (can : Regs) (frame : CanFrame) (i : Nat), i < 8 →
        read_mailbox_code can i = some (.Transmit .Inactive) →
        (∀ j, j < i → ∃ c, read_mailbox_code can j = some c ∧
          c ≠ .Transmit .Inactive) →
        transmit_quick can frame
          = .ok (write_mailbox_go can transmit_header frame i).2) ∧
      (∀ (can : Regs) (frame : CanFrame), frame.dataLen ≤ 8 →
        ∀ m, read_mailbox_code can m = some (.Transmit .DataRemote) →
        ∀ s, (transmit_quick can frame = .ok s ∨
            transmit_quick can frame = .err .BufferExhausted s) →
        ∀ k, k < 4 → ramGet s (m * 4 + k) = ramGet can (m * 4 + k)) := by
  refine ⟨⟨by decide, by decide⟩, ?_, ?_⟩
  · intro can frame i hi hc hprev
    exact transmit_quick_go_reach can frame i hc 8 0 (Nat.zero_le i)
      (by omega) (fun j h1 h2 => hprev j h2)
  · intro can frame hflen m hm s hres k hk
    exact transmit_quick_go_preserve frame hflen m 8 0 can hm s hres k hk

/-- Witness for C7's quantified parts: on `init_state` the first pass
writes into mailbox 0. -/
theorem c7_witness :
    transmit_quick init_state (.RemoteFrame ⟨.BaseID 3⟩)
      = .ok (write_mailbox_go init_state transmit_header
          (.RemoteFrame ⟨.BaseID 3⟩) 0).2 :=
  c7_transmit_quick_first_inactive.2.1 init_state (.RemoteFrame ⟨.BaseID 3⟩)
    0 (by decide) (by decide) (fun j hj => absurd hj (by omega))

end CanModel
